import Mathlib

/-!
Verification of the stream-observer daemon (observer.py and its collaborators).

The definitions below are a shallow embedding of the Python source:
pure fragments become Lean functions, the supervisor retry loop becomes a
recursive function, and the stateful endpoint handlers become functions from
explicit inputs (store, pool, request parameters) to explicit outcomes.
Machine-level concerns (eventlet scheduling, HTTP transport, SQLAlchemy
sessions) are modelled by the data they carry: a watcher subprocess is a
function from attempt number to the parsed verdict, an HTTP child is a
function from child name to response status, the database is a list of rows.
-/

namespace Observer

/-- observer.py line 49: seconds between retries while a stream is offline. -/
def WAIT_DELAY : Nat := 30

/-- observer.py line 50: the constant named WAIT_MAX (the source comments it
with "3 hours", which matches 360 sleeps of 30 seconds each). -/
def WAIT_MAX : Nat := 360

/-- The Stream row (observer.py class Stream). The database primary key `id`
is omitted: no modelled logic reads it. `child` is the name of the child node
handling this stream, `none` if this node handles it itself.
`game_ids_supplementary` is the comma-separated signed-integer string, e.g.
"10,-20,15". -/
structure Stream where
  handle : String
  child : Option String
  gametype : String
  game_id : Int
  game_ids_supplementary : String
  state : String
  creator : String
  opponent : String
deriving DecidableEq, Repr

/-! ### Python string primitives

The Python code uses str.lower, str.split(sep) and int(); these are modelled
character-by-character so that all definitions reduce in the kernel. -/

/-- Models Python str.lower for the ASCII identifiers the code compares. -/
def lowerStr (s : String) : String :=
  String.mk (s.toList.map Char.toLower)

/-- Helper for `splitChar`: walks the character list, `cur` holds the current
chunk reversed. -/
def splitCharAux (sep : Char) : List Char → List Char → List String
  | [], cur => [String.mk cur.reverse]
  | c :: rest, cur =>
    if c = sep then String.mk cur.reverse :: splitCharAux sep rest []
    else splitCharAux sep rest (c :: cur)

/-- Models Python str.split(sep) for a one-character separator: splitting the
empty string yields [""], and separators at the ends yield empty chunks. -/
def splitChar (sep : Char) (s : String) : List String :=
  splitCharAux sep s.toList []

/-- Accumulates decimal digits, models int() on a digit string. -/
def parseNatChars : List Char → Nat → Nat
  | [], acc => acc
  | c :: rest, acc => parseNatChars rest (acc * 10 + (c.toNat - 48))

/-- Models Python int() on the well-formed signed decimal strings stored in
`game_ids_supplementary` (an optional leading minus sign, then digits). -/
def pyInt (s : String) : Int :=
  match s.toList with
  | c :: rest =>
    if c = '-' then -(parseNatChars rest 0 : Int)
    else (parseNatChars (c :: rest) 0 : Int)
  | [] => 0

/-! ### Winner selection from the verdict list (observer.py lines 350-359)

The source builds an empty dict `freqs`, then for each collected result `r`
increments `freqs[r]` (starting it at 1), then takes
`pairs = sorted(freqs.items(), key=lambda p: p[1])` and returns `pairs[0][0]`.
A Python dict keeps insertion order, so `freqs.items()` lists the distinct
verdicts in order of first occurrence with their total counts; `sorted` is a
stable ascending sort on the count. -/

/-- One iteration of the frequency-counting loop: increment the entry for `r`
if present, else append `(r, 1)`. -/
def bump (acc : List (String × Nat)) (r : String) : List (String × Nat) :=
  if acc.any (fun p => p.1 == r) then
    acc.map (fun p => if p.1 == r then (p.1, p.2 + 1) else p)
  else
    acc ++ [(r, 1)]

/-- The `freqs` dict after the counting loop, as an insertion-ordered
association list. -/
def freqsOf (results : List String) : List (String × Nat) :=
  results.foldl bump []

/-- Models `sorted(pairs, key=lambda p: p[1])`: a stable ascending sort on the
count. Insertion sort with a non-strict comparison is stable, and a stable
sort result is unique, so this equals the sort Python performs. -/
def sortPairs (l : List (String × Nat)) : List (String × Nat) :=
  List.insertionSort (fun a b => a.2 ≤ b.2) l

/-- `pairs[0][0]`: the verdict of the first sorted pair. `none` only when the
verdict list was empty (where Python would raise an IndexError; the caller
guarantees non-emptiness). -/
def pickWinner (results : List String) : Option String :=
  (sortPairs (freqsOf results)).head?.map (fun p => p.1)

/-- Count associated with key `v` in an association list (0 if absent). -/
def lookupCount (acc : List (String × Nat)) (v : String) : Nat :=
  match acc.find? (fun p => p.1 == v) with
  | some p => p.2
  | none => 0

instance : IsTotal (String × Nat) (fun a b => a.2 ≤ b.2) :=
  ⟨fun a b => Nat.le_total a.2 b.2⟩

instance : IsTrans (String × Nat) (fun a b => a.2 ≤ b.2) :=
  ⟨fun _ _ _ hab hbc => Nat.le_trans hab hbc⟩

/-! ### The offline retry loop of Handler.watch_tc (observer.py lines 242-280)

The watcher subprocess is abstracted as `watchRes : Nat → String`, giving the
value that the n-th call of `self.watch()` returns (the source calls `watch`
once before the loop and once per iteration). The loop body sleeps
WAIT_DELAY seconds, re-calls `watch`, and increments `waits`; before each
sleep it raises when `waits > WAIT_MAX` (note: the counter of sleeps is
compared against WAIT_MAX itself, not against WAIT_MAX / WAIT_DELAY). -/

/-- Result of the retry loop: either a non-offline value returned by `watch`
after `sleeps` sleeps, or the "waited for too long" exception raised with
`sleeps` sleeps performed. -/
inductive TcLoopResult where
  | found (v : String) (sleeps : Nat)
  | abandoned (sleeps : Nat)
deriving DecidableEq, Repr

/-- The `while result == offline` loop of watch_tc. `attempt` is the index of
the pending `watch` result, `waits` the number of sleeps performed so far. -/
def watchTcLoop (watchRes : Nat → String) (attempt waits : Nat) : TcLoopResult :=
  if watchRes attempt = "offline" then
    if _h : waits > WAIT_MAX then TcLoopResult.abandoned waits
    else watchTcLoop watchRes (attempt + 1) (waits + 1)
  else TcLoopResult.found (watchRes attempt) waits
termination_by WAIT_MAX + 1 - waits
decreasing_by simp_wf; omega

/-- Observable outcome of one run of Handler.watch_tc. On the exception path
(the loop raised after too many waits) the handler writes state "failed" to
the row and calls self.done with "failed" and the current time; on the normal
path it returns the watch result and neither write happens in watch_tc. -/
structure TcRun where
  sleeps : Nat
  returned : Option String
  stateSet : Option String
  doneArg : Option String
deriving DecidableEq, Repr

/-- Handler.watch_tc for a run whose watch results are `watchRes`: runs the
retry loop from zero sleeps; the exception handler (observer.py lines
267-273) turns the abandonment into state := "failed" plus done("failed"). -/
def watch_tc (watchRes : Nat → String) : TcRun :=
  match watchTcLoop watchRes 0 0 with
  | TcLoopResult.found v s => ⟨s, some v, none, none⟩
  | TcLoopResult.abandoned s => ⟨s, none, some "failed", some "failed"⟩

/-! ### The result propagation URL of Handler.done (observer.py lines 373-381)

`done` issues `requests.patch(SELF_URL + "/streams/" + handle, ...)`, the
format string being `"..//streams/..".format(SELF_URL, self.stream.handle)`:
the gametype is not part of the URL. -/

/-- The URL Handler.done addresses its PATCH to. -/
def done_url (selfUrl : String) (stream : Stream) : String :=
  selfUrl ++ "/streams/" ++ stream.handle

/-- Route matching for the resource registered at "/streams/<id>/<gametype>"
(observer.py lines 550-554): a path matches exactly when it has the two
non-empty segments after "/streams"; the default werkzeug converter never
matches an empty segment or a missing one. -/
def streamPathParams (path : String) : Option (String × String) :=
  match splitChar '/' path with
  | ["", "streams", id, gametype] =>
    if id ≠ "" ∧ gametype ≠ "" then some (id, gametype) else none
  | _ => none

/-! ### The root adapter stream_done (observer.py lines 479-531)

`Game.query.get` is abstracted as `gameExists : Int → Bool`, and the
`Poller.findPoller(stream.gametype).twitch` level as `twitch : Nat`. The
returned list holds the `Poller.gameDone(game, winner, int(timestamp))`
calls in order as (game id, winner) pairs; the timestamp is passed through
unchanged and no claim depends on it, so it is omitted from the pairs.
The Python local variable `winner` is mutated inside the loop (both by the
"failed" policy and by the reversed-entry inversion), which the recursion
models by threading the current value of `winner` through. -/

/-- The game-id iteration source: `chain([game_id],
map(int, filter(None, game_ids_supplementary.split(","))))`. -/
def gidList (stream : Stream) : List Int :=
  stream.game_id ::
    ((splitChar ',' stream.game_ids_supplementary).filter (fun t => t ≠ "")).map pyInt

/-- The body of the `for gid in ...` loop of stream_done. -/
def stream_done_go (gameExists : Int → Bool) (twitch : Nat) :
    List Int → Option String → List (Int × String)
  | [], _ => []
  | gid :: rest, winner =>
    let g := if gid < 0 then -gid else gid
    if gameExists g then
      let w1 := if winner = some "failed" then
                  if twitch = 2 then some "draw"
                  else if twitch = 1 then none
                  else winner
                else winner
      match w1 with
      | none => stream_done_go gameExists twitch rest none
      | some wv =>
        if wv = "" then stream_done_go gameExists twitch rest (some wv)
        else
          let wv2 := if (wv = "creator" ∨ wv = "opponent") ∧ gid < 0 then
                       (if wv = "opponent" then "creator" else "opponent")
                     else wv
          (g, wv2) :: stream_done_go gameExists twitch rest (some wv2)
    else stream_done_go gameExists twitch rest winner

/-- The sequence of gameDone calls stream_done makes for a stream, given the
PATCHed winner (`none` models Python None, `some` a string). -/
def stream_done_calls (gameExists : Int → Bool) (twitch : Nat) (stream : Stream)
    (winner : Option String) : List (Int × String) :=
  stream_done_go gameExists twitch (gidList stream) winner

/-! ### PUT delegation to children (observer.py lines 646-671)

The `for child, host in CHILDREN.items()` loop PUTs the stream to each child
in configured order and stops at the first whose response status equals 200;
the for-else falls through to local add_stream when no child matched. The
the responses of the children are abstracted as `status : String → Nat`, keyed by the
child name. -/

/-- Where the delegation loop left the stream. -/
inductive PutDelegation where
  | delegated (child : String)
  | noChild
deriving DecidableEq, Repr

/-- The delegation loop: the first child whose PUT answer has status exactly
200 is recorded in the row and iteration stops. -/
def put_delegate (children : List (String × String)) (status : String → Nat) :
    PutDelegation :=
  match children with
  | [] => PutDelegation.noChild
  | (name, _host) :: rest =>
    if status name = 200 then PutDelegation.delegated name
    else put_delegate rest status

/-! ### PUT merge into an existing row (observer.py lines 613-634) -/

/-- Outcome of the merge branch of StreamResource.put: `ok` carries the row
with the supplementary string extended; `conflict` is the abort(409), raised
before any mutation, so the row is unchanged. -/
inductive MergeResult where
  | ok (updated : Stream)
  | conflict
deriving DecidableEq, Repr

/-- The supplementary-append: add a comma when the string is non-empty, then
`str(game)`. -/
def appendSupp (s : String) (g : Int) : String :=
  (if s ≠ "" then s ++ "," else s) ++ toString g

/-- The merge branch: compare the incoming creator and opponent with the
stored ones, all lower-cased; same orientation appends +game_id, swapped
orientation appends -game_id, anything else is a 409 conflict. -/
def put_merge (stream : Stream) (creator opponent : String) (game_id : Int) :
    MergeResult :=
  if lowerStr creator = lowerStr stream.creator then
    if lowerStr opponent ≠ lowerStr stream.opponent then MergeResult.conflict
    else MergeResult.ok
      { stream with game_ids_supplementary :=
          appendSupp stream.game_ids_supplementary game_id }
  else if lowerStr opponent = lowerStr stream.creator then
    if lowerStr creator ≠ lowerStr stream.opponent then MergeResult.conflict
    else MergeResult.ok
      { stream with game_ids_supplementary :=
          appendSupp stream.game_ids_supplementary (-game_id) }
  else MergeResult.conflict

/-! ### Startup recovery (observer.py init_app lines 140-156) and
add_stream (lines 452-467) -/

/-- What init_app does with one stored row: states waiting and watching go to
add_stream (restart), states found and failed are deleted, anything else is
logged and skipped. The `child` field of the row is not consulted. -/
inductive RecoveryAction where
  | restart
  | delete
  | skip
deriving DecidableEq, Repr

/-- The per-row dispatch of the recovery loop in init_app. -/
def init_app_action (stream : Stream) : RecoveryAction :=
  if stream.state = "waiting" ∨ stream.state = "watching" then
    RecoveryAction.restart
  else if stream.state = "found" ∨ stream.state = "failed" then
    RecoveryAction.delete
  else RecoveryAction.skip

/-- Handler.find over the registry defined in the source: FifaHandler covers
the two EA-football gametypes, TestHandler covers "test". -/
def handlerFor (gametype : String) : Option String :=
  if gametype = "fifa14-xboxone" ∨ gametype = "fifa15-xboxone" then
    some "FifaHandler"
  else if gametype = "test" then some "TestHandler"
  else none

/-- Result of add_stream. -/
inductive AddStreamResult where
  | busy
  | unsupported
  | started
deriving DecidableEq, Repr

/-- add_stream: reject when the pool is full, reject unknown gametypes, else
spawn the handler and insert it into the pool. It never inspects
`stream.child`. -/
def add_stream (poolSize maxStreams : Nat) (stream : Stream) : AddStreamResult :=
  if poolSize ≥ maxStreams then AddStreamResult.busy
  else
    match handlerFor stream.gametype with
    | none => AddStreamResult.unsupported
    | some _ => AddStreamResult.started

/-! ### FifaHandler.check score handling (observer.py lines 401-439)

The claim-relevant logic starts after line parsing: `nick1`, `nick2` are the
two strings cut from the Players section and `score1`, `score2` the two
parsed non-negative integers. The source lower-cases the nicks, returns
"draw" on equal scores, then maps the stored creator and opponent nicknames
(lower-cased) to parsed sides 1 and 2; when neither matched it defaults to
creator = side 1, opponent = side 2 (logging a warning); when only the
opponent matched it infers the creator as the other side. -/

/-- The decision part of FifaHandler.check on a Score-bearing line. -/
def fifa_check_score (stream : Stream) (nick1 nick2 : String)
    (score1 score2 : Nat) : Option String :=
  let n1 := lowerStr nick1
  let n2 := lowerStr nick2
  if score1 = score2 then some "draw"
  else
    let cl := lowerStr stream.creator
    let ol := lowerStr stream.opponent
    let creatorSide : Option Nat :=
      if cl = n1 then some 1 else if cl = n2 then some 2 else none
    let opponentSide : Option Nat :=
      if ol = n1 then some 1 else if ol = n2 then some 2 else none
    let sides : Option Nat × Option Nat :=
      if creatorSide = none ∧ opponentSide = none then (some 1, some 2)
      else (creatorSide, opponentSide)
    let creatorNum : Nat :=
      match sides.1 with
      | some c => c
      | none => if sides.2 = some 2 then 1 else 2
    let winner : Nat := if score2 < score1 then 1 else 2
    some (if winner = creatorNum then "creator" else "opponent")

/-! ### DELETE endpoint (observer.py lines 709-728) and abort_stream
(lines 469-477)

The supervisor pool is modelled by its key set, a list of
(handle, gametype) pairs. `childStatus` abstracts the response status a
DELETE forwarded to the owning child would get. -/

/-- Stream.find(id, gametype): the first row matching both fields. -/
def findStream (store : List Stream) (id gametype : String) : Option Stream :=
  store.find? (fun s => s.handle == id && s.gametype == gametype)

/-- abort_stream: when the (handle, gametype) key is absent from the pool,
return False and touch nothing; else abort the supervisor, whose cleanup
removes the key, and return True. -/
def abort_stream (pool : List (String × String)) (stream : Stream) :
    Bool × List (String × String) :=
  if (stream.handle, stream.gametype) ∈ pool then
    (true, pool.erase (stream.handle, stream.gametype))
  else (false, pool)

/-- Observable outcome of StreamResource.delete: HTTP status, whether the
body was the deleted:true JSON, the value abort_stream returned when it was
called, and the store and pool afterwards. -/
structure DeleteOutcome where
  status : Nat
  deletedTrue : Bool
  abortRet : Option Bool
  store : List Stream
  pool : List (String × String)
deriving DecidableEq, Repr

/-- StreamResource.delete: 404 when the row is missing; forward to the child
when `child` is set (failing with the child status when it is not 200); else
abort_stream locally (its return value ignored), delete the row, answer
deleted:true. -/
def deleteStream (store : List Stream) (pool : List (String × String))
    (childStatus : Nat) (id gametype : String) : DeleteOutcome :=
  match findStream store id gametype with
  | none => ⟨404, false, none, store, pool⟩
  | some s =>
    match s.child with
    | some _ =>
      if childStatus ≠ 200 then ⟨childStatus, false, none, store, pool⟩
      else ⟨200, true, none, store.erase s, pool⟩
    | none =>
      let r := abort_stream pool s
      ⟨200, true, some r.1, store.erase s, r.2⟩

/-! ### Definitions used only by proofs -/

/-- Pairwise distinctness of the keys of an association list (the dict keys
are unique by construction). -/
def KeysNodup (l : List (String × Nat)) : Prop :=
  l.Pairwise (fun a b => a.1 ≠ b.1)

/-! ## Theorems

Helper lemmas first, then one theorem per claim (with its witness or
counterexample where applicable). -/



theorem lookupCount_cons (x : String × Nat) (l : List (String × Nat)) (v : String) :
    lookupCount (x :: l) v = if x.1 = v then x.2 else lookupCount l v := by
  by_cases h : x.1 = v
  · have hb : (x.1 == v) = true := by simpa using h
    simp [lookupCount, List.find?, hb, h]
  · have hb : (x.1 == v) = false := by simpa using h
    simp [lookupCount, List.find?, hb, h]

theorem bumpf_fst (r : String) (p : String × Nat) :
    (if p.1 == r then (p.1, p.2 + 1) else p).1 = p.1 := by
  split
  · rfl
  · rfl

theorem lookup_map_bump (r v : String) (l : List (String × Nat)) (hv : v ≠ r) :
    lookupCount (l.map (fun p => if p.1 == r then (p.1, p.2 + 1) else p)) v
      = lookupCount l v := by
  induction l with
  | nil => rfl
  | cons x t ih =>
    rw [List.map_cons, lookupCount_cons, lookupCount_cons, bumpf_fst]
    by_cases hx : x.1 = v
    · rw [if_pos hx, if_pos hx]
      have hxr : (x.1 == r) = false := by
        rw [hx]
        simpa using hv
      simp [hxr]
    · rw [if_neg hx, if_neg hx, ih]

theorem lookup_map_bump_self (r : String) (l : List (String × Nat))
    (hmem : l.any (fun p => p.1 == r) = true) :
    lookupCount (l.map (fun p => if p.1 == r then (p.1, p.2 + 1) else p)) r
      = lookupCount l r + 1 := by
  induction l with
  | nil => simp at hmem
  | cons x t ih =>
    rw [List.map_cons, lookupCount_cons, lookupCount_cons, bumpf_fst]
    by_cases hx : x.1 = r
    · have hb : (x.1 == r) = true := by simpa using hx
      rw [if_pos hx, if_pos hx, hb]
      simp
    · have hb : (x.1 == r) = false := by simpa using hx
      rw [if_neg hx, if_neg hx]
      simp only [List.any_cons, hb, Bool.false_or] at hmem
      exact ih hmem

theorem lookup_append_new (r v : String) (l : List (String × Nat)) (hv : v ≠ r) :
    lookupCount (l ++ [(r, 1)]) v = lookupCount l v := by
  induction l with
  | nil =>
    rw [List.nil_append, lookupCount_cons, if_neg (fun h => hv h.symm)]
  | cons x t ih =>
    rw [List.cons_append, lookupCount_cons, lookupCount_cons, ih]

theorem lookup_append_new_self (r : String) (l : List (String × Nat))
    (h : ∀ p ∈ l, p.1 ≠ r) :
    lookupCount (l ++ [(r, 1)]) r = 1 ∧ lookupCount l r = 0 := by
  induction l with
  | nil =>
    constructor
    · rw [List.nil_append, lookupCount_cons, if_pos rfl]
    · rfl
  | cons x t ih =>
    have hx : x.1 ≠ r := h x (List.mem_cons_self x t)
    have ih' := ih (fun p hp => h p (List.mem_cons_of_mem x hp))
    constructor
    · rw [List.cons_append, lookupCount_cons, if_neg hx]
      exact ih'.1
    · rw [lookupCount_cons, if_neg hx]
      exact ih'.2

theorem bump_lookup (acc : List (String × Nat)) (r v : String) :
    lookupCount (bump acc r) v = lookupCount acc v + (if v = r then 1 else 0) := by
  unfold bump
  by_cases hany : acc.any (fun p => p.1 == r) = true
  · rw [if_pos hany]
    by_cases hv : v = r
    · subst hv
      rw [if_pos rfl, lookup_map_bump_self v acc hany]
    · rw [if_neg hv, lookup_map_bump r v acc hv, Nat.add_zero]
  · rw [if_neg hany]
    have hall : ∀ p ∈ acc, p.1 ≠ r := by
      intro p hp
      simp only [List.any_eq_true, beq_iff_eq] at hany
      exact fun hpr => hany ⟨p, hp, hpr⟩
    by_cases hv : v = r
    · subst hv
      rw [if_pos rfl]
      have h2 := lookup_append_new_self v acc hall
      rw [h2.1, h2.2]
    · rw [if_neg hv, lookup_append_new r v acc hv, Nat.add_zero]

theorem foldl_bump_lookup (l : List String) :
    ∀ (acc : List (String × Nat)) (v : String),
      lookupCount (l.foldl bump acc) v = lookupCount acc v + l.count v := by
  induction l with
  | nil =>
    intro acc v
    simp
  | cons r t ih =>
    intro acc v
    rw [List.foldl_cons, ih, bump_lookup, List.count_cons]
    by_cases hv : v = r
    · subst hv
      simp
      omega
    · have hb : (r == v) = false := by
        simpa using fun h => hv h.symm
      rw [if_neg hv, hb]
      simp

theorem freqsOf_lookup (l : List String) (v : String) :
    lookupCount (freqsOf l) v = l.count v := by
  have h := foldl_bump_lookup l [] v
  simp only [freqsOf]
  rw [h, show lookupCount [] v = 0 from rfl, Nat.zero_add]



theorem bump_keysNodup (acc : List (String × Nat)) (r : String)
    (h : KeysNodup acc) : KeysNodup (bump acc r) := by
  unfold bump KeysNodup
  by_cases hany : acc.any (fun p => p.1 == r) = true
  · rw [if_pos hany, List.pairwise_map]
    refine h.imp ?_
    intro a b hab
    rw [bumpf_fst, bumpf_fst]
    exact hab
  · rw [if_neg hany, List.pairwise_append]
    refine ⟨h, List.pairwise_singleton _ _, ?_⟩
    intro a ha b hb
    have hb' : b = (r, 1) := by simpa using hb
    subst hb'
    simp only [List.any_eq_true, beq_iff_eq] at hany
    exact fun har => hany ⟨a, ha, har⟩

theorem foldl_bump_keysNodup (l : List String) :
    ∀ acc, KeysNodup acc → KeysNodup (l.foldl bump acc) := by
  induction l with
  | nil => intro acc h; exact h
  | cons r t ih =>
    intro acc h
    rw [List.foldl_cons]
    exact ih _ (bump_keysNodup acc r h)

theorem freqsOf_keysNodup (l : List String) : KeysNodup (freqsOf l) :=
  foldl_bump_keysNodup l [] List.Pairwise.nil

theorem lookup_of_mem (l : List (String × Nat)) (p : String × Nat)
    (hmem : p ∈ l) (hnd : KeysNodup l) : lookupCount l p.1 = p.2 := by
  induction l with
  | nil => cases hmem
  | cons x t ih =>
    rw [lookupCount_cons]
    rcases List.mem_cons.mp hmem with rfl | ht
    · rw [if_pos rfl]
    · have hx : x.1 ≠ p.1 := (List.pairwise_cons.mp hnd).1 p ht
      rw [if_neg hx]
      exact ih ht (List.pairwise_cons.mp hnd).2

theorem freqsOf_count_of_mem (l : List String) (p : String × Nat)
    (h : p ∈ freqsOf l) : p.2 = l.count p.1 := by
  have h1 := lookup_of_mem (freqsOf l) p h (freqsOf_keysNodup l)
  rw [← h1, freqsOf_lookup]

theorem mem_bump_keys (acc : List (String × Nat)) (r : String) (p : String × Nat)
    (h : p ∈ bump acc r) : (∃ q ∈ acc, p.1 = q.1) ∨ p.1 = r := by
  unfold bump at h
  by_cases hany : acc.any (fun p => p.1 == r) = true
  · rw [if_pos hany] at h
    obtain ⟨q, hq, hfq⟩ := List.mem_map.mp h
    left
    exact ⟨q, hq, by rw [← hfq, bumpf_fst]⟩
  · rw [if_neg hany] at h
    rcases List.mem_append.mp h with h1 | h2
    · left
      exact ⟨p, h1, rfl⟩
    · right
      have h2' : p = (r, 1) := by simpa using h2
      rw [h2']

theorem foldl_bump_keys (l : List String) :
    ∀ acc p, p ∈ l.foldl bump acc → (∃ q ∈ acc, p.1 = q.1) ∨ p.1 ∈ l := by
  induction l with
  | nil =>
    intro acc p h
    left
    exact ⟨p, h, rfl⟩
  | cons r t ih =>
    intro acc p h
    rw [List.foldl_cons] at h
    rcases ih (bump acc r) p h with ⟨q, hq, hpq⟩ | hmem
    · rcases mem_bump_keys acc r q hq with ⟨q2, hq2, hq12⟩ | hqr
      · left
        exact ⟨q2, hq2, hpq.trans hq12⟩
      · right
        rw [List.mem_cons]
        left
        exact hpq.trans hqr
    · right
      exact List.mem_cons_of_mem r hmem

theorem freqsOf_keys_mem (l : List String) (p : String × Nat)
    (h : p ∈ freqsOf l) : p.1 ∈ l := by
  rcases foldl_bump_keys l [] p h with ⟨q, hq, _⟩ | hm
  · cases hq
  · exact hm

theorem freqsOf_entry_exists (l : List String) (v : String) (hv : v ∈ l) :
    ∃ p ∈ freqsOf l, p.1 = v ∧ p.2 = l.count v := by
  have hc : 0 < l.count v := List.count_pos_iff.mpr hv
  have hl := freqsOf_lookup l v
  unfold lookupCount at hl
  cases hfind : (freqsOf l).find? (fun p => p.1 == v) with
  | none =>
    rw [hfind] at hl
    simp at hl
    omega
  | some p =>
    rw [hfind] at hl
    have hp1 : p.1 = v := by simpa using List.find?_some hfind
    exact ⟨p, List.mem_of_find?_eq_some hfind, hp1, hl⟩

theorem freqsOf_ne_nil (l : List String) (h : l ≠ []) : freqsOf l ≠ [] := by
  obtain ⟨x, hx⟩ := List.exists_mem_of_ne_nil l h
  intro hnil
  have hl := freqsOf_lookup l x
  rw [hnil] at hl
  have hc : 0 < l.count x := List.count_pos_iff.mpr hx
  rw [show lookupCount [] x = 0 from rfl] at hl
  omega

theorem sortPairs_perm (l : List (String × Nat)) : (sortPairs l).Perm l :=
  List.perm_insertionSort _ l

theorem sortPairs_sorted (l : List (String × Nat)) :
    List.Sorted (fun a b : String × Nat => a.2 ≤ b.2) (sortPairs l) :=
  List.sorted_insertionSort _ l

/-- C1: for every non-empty list of collected verdicts, the winner selection of
Handler.watch computes the frequency of each distinct verdict value, sorts the
(value, count) pairs by count in ascending order and returns the value of the
first pair, so the reported winner is a verdict with minimal frequency among
those collected. -/
theorem pickWinner_least_frequent (results : List String) (h : results ≠ []) :
    ∃ w, pickWinner results = some w ∧ w ∈ results ∧
      ∀ v ∈ results, results.count w ≤ results.count v := by
  have hfne := freqsOf_ne_nil results h
  have hperm := sortPairs_perm (freqsOf results)
  have hsne : sortPairs (freqsOf results) ≠ [] := by
    intro hnil
    rw [hnil] at hperm
    exact hfne (List.Perm.nil_eq hperm).symm
  obtain ⟨p, t, hpt⟩ := List.exists_cons_of_ne_nil hsne
  have hp_mem : p ∈ freqsOf results := by
    refine hperm.mem_iff.mp ?_
    rw [hpt]
    exact List.mem_cons_self p t
  refine ⟨p.1, ?_, freqsOf_keys_mem results p hp_mem, ?_⟩
  · simp [pickWinner, hpt]
  · intro v hv
    obtain ⟨q, hq_mem, hq1, hq2⟩ := freqsOf_entry_exists results v hv
    have hq_s : q ∈ sortPairs (freqsOf results) := hperm.mem_iff.mpr hq_mem
    have hsorted := sortPairs_sorted (freqsOf results)
    rw [hpt] at hq_s hsorted
    have hple : p.2 ≤ q.2 := by
      rcases List.mem_cons.mp hq_s with rfl | hq_t
      · exact Nat.le_refl _
      · exact List.rel_of_sorted_cons hsorted q hq_t
    have hpc := freqsOf_count_of_mem results p hp_mem
    calc results.count p.1 = p.2 := hpc.symm
    _ ≤ q.2 := hple
    _ = results.count v := hq2

/-- Witness for C1 at the concrete verdict list ["a", "b", "b"]. -/
theorem pickWinner_least_frequent_witness :
    ∃ w, pickWinner ["a", "b", "b"] = some w ∧ w ∈ ["a", "b", "b"] ∧
      ∀ v ∈ ["a", "b", "b"],
        (["a", "b", "b"] : List String).count w ≤ (["a", "b", "b"] : List String).count v :=
  pickWinner_least_frequent ["a", "b", "b"] (by decide)



theorem watchTcLoop_allOffline (watchRes : Nat → String)
    (hoff : ∀ n, watchRes n = "offline") :
    ∀ (fuel attempt waits : Nat), waits + fuel = WAIT_MAX + 1 →
      watchTcLoop watchRes attempt waits
        = TcLoopResult.abandoned (WAIT_MAX + 1) := by
  intro fuel
  induction fuel with
  | zero =>
    intro attempt waits hw
    rw [watchTcLoop, if_pos (hoff attempt), dif_pos (show waits > WAIT_MAX by omega)]
    have : waits = WAIT_MAX + 1 := by omega
    rw [this]
  | succ n ih =>
    intro attempt waits hw
    rw [watchTcLoop, if_pos (hoff attempt),
      dif_neg (show ¬ waits > WAIT_MAX by omega)]
    exact ih (attempt + 1) (waits + 1) (by omega)

/-- C2 (amended): when every watch attempt returns an offline verdict, the
supervisor sleeps WAIT_DELAY between attempts and allows WAIT_MAX + 1 = 361
offline sleep-and-retry cycles (the guard compares the sleep counter against
WAIT_MAX itself, not against WAIT_MAX / WAIT_DELAY); on exceeding that count it
stops retrying, sets the stream state to failed and calls done with "failed"
and the current time. -/
theorem watch_tc_all_offline (watchRes : Nat → String)
    (hoff : ∀ n, watchRes n = "offline") :
    watch_tc watchRes = ⟨WAIT_MAX + 1, none, some "failed", some "failed"⟩ := by
  unfold watch_tc
  rw [watchTcLoop_allOffline watchRes hoff (WAIT_MAX + 1) 0 0 (by omega)]

/-- Witness for the amended C2 at the concrete all-offline watcher. -/
theorem watch_tc_all_offline_witness :
    watch_tc (fun _ => "offline")
      = ⟨WAIT_MAX + 1, none, some "failed", some "failed"⟩ :=
  watch_tc_all_offline (fun _ => "offline") (fun _ => rfl)

/-- C2 counterexample: with every watch attempt offline, the loop performs
WAIT_MAX + 1 = 361 sleeps before abandoning the stream, which differs from the
WAIT_MAX / WAIT_DELAY = 12 cycles the claim states. -/
theorem watch_tc_not_twelve_cycles :
    (watch_tc (fun _ => "offline")).sleeps = WAIT_MAX + 1 ∧
      (watch_tc (fun _ => "offline")).sleeps ≠ WAIT_MAX / WAIT_DELAY := by
  have h := watchTcLoop_allOffline (fun _ => "offline") (fun _ => rfl)
    (WAIT_MAX + 1) 0 0 (by omega)
  unfold watch_tc
  rw [h]
  refine ⟨rfl, by decide⟩

/-- C3: refuted on the code — Handler.done addresses its PATCH to
SELF_URL ++ "/streams/" ++ handle, with no gametype path segment, and that
path does not match the route /streams/<id>/<gametype> that the PATCH handler
of the node itself is registered under (a two-segment path does match). The
claim requires both the handle and the gametype segments to be present. -/
theorem done_url_omits_gametype :
    done_url "http://node"
        ⟨"abc", none, "fifa14-xboxone", 1, "", "watching", "X", "Y"⟩
      = "http://node/streams/abc" ∧
    streamPathParams "/streams/abc" = none ∧
    streamPathParams "/streams/abc/fifa14-xboxone"
      = some ("abc", "fifa14-xboxone") := by
  refine ⟨by decide, by decide, by decide⟩

/-- C4: refuted on the code — with PATCHed winner "creator", primary game 10
and supplementary entries -20 and 30, stream_done invokes gameDone with
("opponent") for game 30: the inversion performed for the reversed entry -20 is
written back into the loop variable and leaks into the later non-negative
entry, which by the claim should receive the PATCHed winner itself. -/
theorem stream_done_inversion_leaks :
    stream_done_calls (fun _ => true) 1
        ⟨"s", none, "fifa15-xboxone", 10, "-20,30", "found", "X", "Y"⟩
        (some "creator")
      = [(10, "creator"), (20, "opponent"), (30, "opponent")] ∧
    ((30 : Int), "creator") ∉ stream_done_calls (fun _ => true) 1
        ⟨"s", none, "fifa15-xboxone", 10, "-20,30", "found", "X", "Y"⟩
        (some "creator") := by
  refine ⟨by decide, by decide⟩

/-- C5: at twitch levels 2 and 1 the failed policy acts as the claim states
(coerce to "draw", respectively no gameDone call), but at level 0 the entry is
not skipped: the winner stays "failed", a truthy string, and gameDone is
invoked with the value "failed" — contradicting the claim and the enum
(creator, opponent, draw) of the Game.winner column in v1/models.py. -/
theorem stream_done_failed_twitch_zero :
    stream_done_calls (fun _ => true) 2
        ⟨"s", none, "fifa15-xboxone", 10, "", "found", "X", "Y"⟩ (some "failed")
      = [(10, "draw")] ∧
    stream_done_calls (fun _ => true) 1
        ⟨"s", none, "fifa15-xboxone", 10, "", "found", "X", "Y"⟩ (some "failed")
      = [] ∧
    stream_done_calls (fun _ => true) 0
        ⟨"s", none, "fifa15-xboxone", 10, "", "found", "X", "Y"⟩ (some "failed")
      = [(10, "failed")] := by
  refine ⟨by decide, by decide, by decide⟩

/-- C6: refuted on the code — the delegation loop of StreamResource.put
accepts a child only on status exactly 200. A single child answering 201
(newly created stream) is not recorded and the loop falls through to local
handling; with a 201-answering child before a 200-answering one, the second
child is recorded, so 201 is not treated like 200 as the claim states. -/
theorem put_delegate_skips_201 :
    put_delegate [("c1", "http://c1")] (fun _ => 201) = PutDelegation.noChild ∧
    put_delegate [("c1", "http://c1"), ("c2", "http://c2")]
        (fun n => if n = "c1" then 201 else 200)
      = PutDelegation.delegated "c2" := by
  refine ⟨by decide, by decide⟩

/-- C7: for every PUT on an already-existing (handle, gametype) row, incoming
creator and opponent equal to the stored ones, lower-cased, in the same
orientation append +game_id to the supplementary string; equality in swapped
orientation appends -game_id; every other case aborts with 409 before any
mutation, leaving the row unchanged. -/
theorem put_merge_orientation (s : Stream) (c o : String) (g : Int) :
    (lowerStr c = lowerStr s.creator ∧ lowerStr o = lowerStr s.opponent →
      put_merge s c o g = MergeResult.ok
        { s with game_ids_supplementary :=
            appendSupp s.game_ids_supplementary g }) ∧
    (¬(lowerStr c = lowerStr s.creator ∧ lowerStr o = lowerStr s.opponent) →
      lowerStr o = lowerStr s.creator ∧ lowerStr c = lowerStr s.opponent →
      put_merge s c o g = MergeResult.ok
        { s with game_ids_supplementary :=
            appendSupp s.game_ids_supplementary (-g) }) ∧
    (¬(lowerStr c = lowerStr s.creator ∧ lowerStr o = lowerStr s.opponent) →
      ¬(lowerStr o = lowerStr s.creator ∧ lowerStr c = lowerStr s.opponent) →
      put_merge s c o g = MergeResult.conflict) := by
  unfold put_merge
  refine ⟨?_, ?_, ?_⟩
  · rintro ⟨h1, h2⟩
    rw [if_pos h1, if_neg (by simp [h2])]
  · rintro hns ⟨h1, h2⟩
    have hc : ¬ lowerStr c = lowerStr s.creator := by
      intro hcc
      exact hns ⟨hcc, h1.trans (hcc.symm.trans h2)⟩
    rw [if_neg hc, if_pos h1, if_neg (by simp [h2])]
  · intro hns hnr
    by_cases hc : lowerStr c = lowerStr s.creator
    · rw [if_pos hc]
      have ho : lowerStr o ≠ lowerStr s.opponent := fun hh => hns ⟨hc, hh⟩
      rw [if_pos ho]
    · rw [if_neg hc]
      by_cases ho : lowerStr o = lowerStr s.creator
      · rw [if_pos ho]
        have hcn : lowerStr c ≠ lowerStr s.opponent := fun hh => hnr ⟨ho, hh⟩
        rw [if_pos hcn]
      · rw [if_neg ho]

/-- Witness for C7: ordered, swapped and conflicting merges on a concrete
row. -/
theorem put_merge_orientation_witness :
    put_merge ⟨"s", none, "g", 10, "", "waiting", "X", "Y"⟩ "x" "y" 20
      = MergeResult.ok ⟨"s", none, "g", 10, "20", "waiting", "X", "Y"⟩ ∧
    put_merge ⟨"s", none, "g", 10, "", "waiting", "X", "Y"⟩ "y" "x" 20
      = MergeResult.ok ⟨"s", none, "g", 10, "-20", "waiting", "X", "Y"⟩ ∧
    put_merge ⟨"s", none, "g", 10, "", "waiting", "X", "Y"⟩ "x" "z" 20
      = MergeResult.conflict := by
  refine ⟨?_, ?_, ?_⟩
  · rw [(put_merge_orientation ⟨"s", none, "g", 10, "", "waiting", "X", "Y"⟩
      "x" "y" 20).1 (by decide)]
    decide
  · rw [(put_merge_orientation ⟨"s", none, "g", 10, "", "waiting", "X", "Y"⟩
      "y" "x" 20).2.1 (by decide) (by decide)]
    decide
  · exact (put_merge_orientation ⟨"s", none, "g", 10, "", "waiting", "X", "Y"⟩
      "x" "z" 20).2.2 (by decide) (by decide)

/-- C8: refuted on the code — the recovery pass of init_app dispatches on the
state alone: a row with state "waiting" and a non-empty child field is handed
to add_stream, and add_stream (which never reads the child field) starts a
local supervisor for it whenever the pool has room and the gametype has a
handler, whereas the claim says no supervisor is started for a row with
non-empty child. -/
theorem init_app_restarts_delegated_row :
    init_app_action ⟨"h", some "c1", "fifa14-xboxone", 1, "", "waiting", "X", "Y"⟩
      = RecoveryAction.restart ∧
    add_stream 0 4 ⟨"h", some "c1", "fifa14-xboxone", 1, "", "waiting", "X", "Y"⟩
      = AddStreamResult.started := by
  refine ⟨by decide, by decide⟩

/-- C9: on a Score-bearing line whose two parsed scores are unequal, when
neither parsed nickname equals the stored creator or opponent after
lower-casing, FifaHandler.check assumes parsed side 1 is the creator and
side 2 the opponent, and returns "creator" exactly when score1 > score2 and
"opponent" otherwise. -/
theorem fifa_check_default_orientation (s : Stream) (nick1 nick2 : String)
    (score1 score2 : Nat) (hne : score1 ≠ score2)
    (hc1 : lowerStr s.creator ≠ lowerStr nick1)
    (hc2 : lowerStr s.creator ≠ lowerStr nick2)
    (ho1 : lowerStr s.opponent ≠ lowerStr nick1)
    (ho2 : lowerStr s.opponent ≠ lowerStr nick2) :
    fifa_check_score s nick1 nick2 score1 score2
      = some (if score2 < score1 then "creator" else "opponent") := by
  simp only [fifa_check_score, if_neg hne, if_neg hc1, if_neg hc2, if_neg ho1,
    if_neg ho2]
  by_cases hw : score2 < score1
  · simp [hw]
  · simp [hw]

/-- Witness for C9 at concrete nicknames matching nobody and score 3:2. -/
theorem fifa_check_default_orientation_witness :
    fifa_check_score ⟨"h", none, "fifa15-xboxone", 1, "", "watching", "Alice", "Bob"⟩
        "xx" "yy" 3 2 = some "creator" := by
  rw [fifa_check_default_orientation
    ⟨"h", none, "fifa15-xboxone", 1, "", "watching", "Alice", "Bob"⟩ "xx" "yy" 3 2
    (by decide) (by decide) (by decide) (by decide) (by decide)]
  decide

/-- C10: DELETE on an existing, locally owned (handle, gametype) row whose
supervisor is no longer in the pool still succeeds: abort_stream finds no pool
entry and returns false without raising, the row is deleted from the store,
the pool is untouched and the response is 200 with deleted set to true. -/
theorem delete_without_pool_entry (store : List Stream)
    (pool : List (String × String)) (childStatus : Nat) (id gametype : String)
    (s : Stream) (hfind : findStream store id gametype = some s)
    (hchild : s.child = none) (hpool : (s.handle, s.gametype) ∉ pool) :
    deleteStream store pool childStatus id gametype
      = ⟨200, true, some false, store.erase s, pool⟩ := by
  simp only [deleteStream, hfind, hchild, abort_stream, if_neg hpool]

/-- Witness for C10 on a concrete one-row store and an empty pool. -/
theorem delete_without_pool_entry_witness :
    deleteStream [⟨"h", none, "test", 1, "", "found", "X", "Y"⟩] [] 200 "h" "test"
      = ⟨200, true, some false, [], []⟩ := by
  rw [delete_without_pool_entry [⟨"h", none, "test", 1, "", "found", "X", "Y"⟩]
    [] 200 "h" "test" ⟨"h", none, "test", 1, "", "found", "X", "Y"⟩
    (by decide) rfl (by decide)]
  decide

end Observer
